import Mathlib

/-!
Verification development for the centris-analyse-bot repository.

This file gives a shallow embedding of the two core modules of the
repository and proves properties of that embedding:

* src/centris_analyzer.py - the extraction/normalization pipeline
  (money normalizer, JSON-LD price extraction, display-price extraction,
  embedded NEXT_DATA listing selection and field extraction, the phantom
  price filter, and the top level analyser_centris).
* src/template1_calcs.py - the financial calculator compute_template1.

Modeling conventions, stated once here:

* Python floats are modeled as exact rationals. All float arithmetic in
  the source (sums, products, divisions, the amortization formula) is
  modeled exactly over the rationals; IEEE rounding error is not modeled.
  Python round() (one-argument, round half to even, often called banker rounding)
  is modeled by pyRound, and int() truncation of a float by pyTrunc.
* JSON values are modeled by the mutual inductive JVal / JArr / JObj so
  that every recursion over a parsed payload is structural and reduces
  inside the kernel. Python dicts keep insertion order; JObj is an
  ordered association list, and lookups take the first matching key.
* Python truthiness is modeled by jtruthy (None, False, 0, 0.0, empty
  string, empty list, empty dict are falsy) and, for Optional[int]
  values, by optIntTruthy (None and 0 are falsy).
* str() applied to a list or dict (which the source can in principle
  feed to its numeric parsers) is not modeled: those cases return none.
  No input exercised by the claims reaches them.
* The raw-HTML lexing layer (regular expressions over the markup and
  BeautifulSoup text extraction) is abstracted by the Doc structure
  defined further below: a Doc carries exactly the intermediate data
  those lexing steps hand to the logic that is verified here (parsed
  JSON-LD blocks, meta description texts, visible text lines, the parsed
  NEXT_DATA payload, the centris id, and the raw regex captures of the
  text fallback extractor). The empty HTML document corresponds to the
  Doc with no data in any of these fields.
-/

namespace Centris

mutual

/-- JSON values (the result of json.loads), with list and object spines
as their own inductive types so recursion over them is structural. -/
inductive JVal : Type where
  | jnull : JVal
  | jbool : Bool → JVal
  | jint : Int → JVal
  | jfloat : ℚ → JVal
  | jstr : String → JVal
  | jarr : JArr → JVal
  | jobj : JObj → JVal

/-- Spine of a JSON array. -/
inductive JArr : Type where
  | nil : JArr
  | cons : JVal → JArr → JArr

/-- Spine of a JSON object: ordered association list, like a Python dict. -/
inductive JObj : Type where
  | nil : JObj
  | cons : String → JVal → JObj → JObj

end

/-- dict.get: first binding of the key, none when absent. -/
def JObj.get : JObj → String → Option JVal
  | .nil, _ => none
  | .cons k v t, key => if k = key then some v else JObj.get t key

/-- The Python test (key in dict). -/
def JObj.hasKey (o : JObj) (key : String) : Bool := (o.get key).isSome

/-- dict.get collapsing a missing key to JSON null, which is how the
source code observes it (json null parses to Python None, the same value
dict.get returns for a missing key). -/
def jgetPy (o : JObj) (key : String) : JVal := (o.get key).getD .jnull

/-- Python truthiness of a JSON value. -/
def jtruthy : JVal → Bool
  | .jnull => false
  | .jbool b => b
  | .jint n => n != 0
  | .jfloat q => q != 0
  | .jstr s => s != ""
  | .jarr .nil => false
  | .jarr _ => true
  | .jobj .nil => false
  | .jobj _ => true

/-- Python (a or b) on JSON values: a when a is truthy, else b. -/
def pyOr (a b : JVal) : JVal := if jtruthy a then a else b

/-- Python truthiness of an Optional[int]: None and 0 are falsy. -/
def optIntTruthy : Option Int → Bool
  | none => false
  | some n => n != 0

/-! ## Character helpers for the money normalizer -/

/-- Non-breaking space, u00a0. -/
def nbspChar : Char := Char.ofNat 160

/-- Narrow non-breaking space, u202f. -/
def nnbspChar : Char := Char.ofNat 8239

/-- The whitespace class used by the source (regex backslash-s over the
relevant inputs): ASCII whitespace plus the two non-breaking spaces. -/
def isPySpace (c : Char) : Bool :=
  c = ' ' || c = '\t' || c = '\n' || c = '\r' ||
  c = Char.ofNat 11 || c = Char.ofNat 12 ||
  c = nbspChar || c = nnbspChar

/-- The replace calls of line 30 of centris_analyzer.py: both
non-breaking spaces become plain spaces. -/
def replNbsp (l : List Char) : List Char :=
  l.map fun c => if c = nbspChar || c = nnbspChar then ' ' else c

/-- Character class kept by the cleaning regex of line 33: digits,
comma, dot, minus sign and whitespace. -/
def keepMoneyChar (c : Char) : Bool :=
  c.isDigit || c = ',' || c = '.' || c = '-' || isPySpace c

/-- str.strip / regex-level strip of surrounding whitespace. -/
def stripWs (l : List Char) : List Char :=
  ((l.dropWhile isPySpace).reverse.dropWhile isPySpace).reverse

/-- ASCII lowercasing of one character. Python str.lower() is
unicode-aware; the keys and anchor phrases the source lowercases are
ASCII, which is the part modeled here. -/
def asciiLower (c : Char) : Char :=
  if 'A' ≤ c && c ≤ 'Z' then Char.ofNat (c.toNat + 32) else c

/-- ASCII str.lower(). -/
def lowerString (s : String) : String := String.mk (s.data.map asciiLower)

/-- Value of a digit string. -/
def digitsToNat (l : List Char) : ℕ :=
  l.foldl (fun acc c => 10 * acc + (c.toNat - 48)) 0

/-- The lexical part of Python float() on a string made of digits, an
optional single leading minus sign and an optional single dot (the only
characters that can survive the cleaning steps of the source): accepts
-?(d+(.d*)?|.d+) and returns (negative?, integer part value, fractional
digits value, number of fractional digits); none on anything else. -/
def parseParts (l : List Char) : Option (Bool × ℕ × ℕ × ℕ) :=
  let p : Bool × List Char :=
    match l with
    | '-' :: t => (true, t)
    | _ => (false, l)
  let ip := p.2.takeWhile Char.isDigit
  let rest := p.2.drop ip.length
  match rest with
  | [] => if ip.isEmpty then none else some (p.1, digitsToNat ip, 0, 0)
  | '.' :: fp =>
      if fp.all Char.isDigit && (!ip.isEmpty || !fp.isEmpty) then
        some (p.1, digitsToNat ip, digitsToNat fp, fp.length)
      else none
  | _ => none

/-- Python float() as an exact rational. -/
def parseFloat (l : List Char) : Option ℚ :=
  (parseParts l).map fun q =>
    let v : ℚ := (q.2.1 : ℚ) + (q.2.2.1 : ℚ) / (10 : ℚ) ^ q.2.2.2
    if q.1 then -v else v

/-- Python round() to an integer: round half to even. -/
def pyRound (q : ℚ) : Int :=
  let f := ⌊q⌋
  let r := q - (f : ℚ)
  if r < 1/2 then f
  else if 1/2 < r then f + 1
  else if f % 2 = 0 then f else f + 1

/-- Round half to even of the fraction a / d (for d positive), in pure
integer arithmetic so that it evaluates inside the kernel. Theorem
roundHalfEven_eq below proves it equal to pyRound of the exact
quotient. -/
def roundHalfEven (a : Int) (d : ℕ) : Int :=
  let f := a / (d : Int)
  let r := a % (d : Int)
  if 2 * r < (d : Int) then f
  else if (d : Int) < 2 * r then f + 1
  else if f % 2 = 0 then f else f + 1

/-- int(round(float(l))) of the source, in pure integer arithmetic:
the composition of parseParts with half-to-even rounding of the exact
value. Theorem parseRound_eq below proves it equal to pyRound of
parseFloat. -/
def parseRound (l : List Char) : Option Int :=
  (parseParts l).map fun q =>
    let a : Int := (q.2.1 : Int) * (10 : Int) ^ q.2.2.2 + (q.2.2.1 : Int)
    roundHalfEven (if q.1 then -a else a) (10 ^ q.2.2.2)

/-- Python int() truncation of a float: toward zero. -/
def pyTrunc (q : ℚ) : Int := if 0 ≤ q then ⌊q⌋ else -⌊-q⌋

/-! ## The money normalizer, _money_to_int (centris_analyzer.py 15-59) -/

/-- Body (without the leading minus sign) of the French decimal pattern
of line 43: one or more digits, a comma, then exactly two digits. -/
def matchDecCore (l : List Char) : Bool :=
  let ds := l.takeWhile Char.isDigit
  match ds, l.drop ds.length with
  | _ :: _, [',', a, b] => a.isDigit && b.isDigit
  | _, _ => false

/-- The regex of line 43 of centris_analyzer.py, anchored both sides:
-?d+,dd exactly. -/
def matchDecFR : List Char → Bool
  | '-' :: t => matchDecCore t
  | l => matchDecCore l

/-- _money_to_int on the character list of a string argument.
Mirrors centris_analyzer.py lines 30-59. The branch that strips commas
when no dot is present falls through, in the source, to a
(comma and dot present) test that can no longer fire because every comma
was just removed; it is therefore written here as a direct return. -/
def money_to_int_chars (l0 : List Char) : Option Int :=
  let s2 := stripWs ((replNbsp l0).filter keepMoneyChar)
  if s2.isEmpty then none else
  let s2b := s2.filter fun c => !isPySpace c
  if s2b.contains ',' && !s2b.contains '.' then
    if matchDecFR s2b then
      parseRound (s2b.map fun c => if c = ',' then '.' else c)
    else
      parseRound (s2b.filter fun c => c != ',')
  else if s2b.contains ',' && s2b.contains '.' then
    parseRound (s2b.filter fun c => c != ',')
  else
    parseRound s2b

/-- _money_to_int restricted to string inputs (the parse_money of the
specification). -/
def money_to_int_str (s : String) : Option Int := money_to_int_chars s.data

/-- _money_to_int on an arbitrary JSON value (centris_analyzer.py 15-59):
None and bools give None, ints pass through, floats are rounded,
strings are parsed. -/
def money_to_int : JVal → Option Int
  | .jnull => none
  | .jbool _ => none
  | .jint n => some n
  | .jfloat q => some (pyRound q)
  | .jstr s => money_to_int_str s
  | .jarr _ => none
  | .jobj _ => none

/-- Helper for _as_int on strings: Python int() over the characters that
survive the [^0-9-] filter; accepts an optional leading minus sign
followed by one or more digits, nothing else. -/
def parseIntDigits (l : List Char) : Option Int :=
  match l with
  | '-' :: t =>
      if !t.isEmpty && t.all Char.isDigit then some (-(digitsToNat t : Int)) else none
  | t =>
      if !t.isEmpty && t.all Char.isDigit then some ((digitsToNat t : Int)) else none

/-- _as_int (centris_analyzer.py 62-79), for plain counts. -/
def as_int : JVal → Option Int
  | .jnull => none
  | .jbool _ => none
  | .jint n => some n
  | .jfloat q => some (pyTrunc q)
  | .jstr s =>
      let digits := (replNbsp s.data).filter fun c => c.isDigit || c = '-'
      if digits.isEmpty || digits = ['-'] then none
      else parseIntDigits digits
  | .jarr _ => none
  | .jobj _ => none

/-- str(x).strip() with the empty result collapsed to None. -/
def pyStripStr (s : String) : Option String :=
  let t := stripWs s.data
  if t.isEmpty then none else some (String.mk t)

/-- _as_str (centris_analyzer.py 82-86). Stringification of floats,
lists and dicts is not modeled (no claim reaches it). -/
def as_str : JVal → Option String
  | .jnull => none
  | .jstr s => pyStripStr s
  | .jint n => pyStripStr (toString n)
  | .jbool b => pyStripStr (if b then "True" else "False")
  | _ => none

/-! ## The financial calculator (template1_calcs.py) -/

/-- Constants of template1_calcs.py lines 7-15. -/
def QF_DEFAULT : ℚ := 80/100
def RATE_DEFAULT : ℚ := 4/100
def AMORT_YEARS_DEFAULT : ℕ := 40
def DSCR_TARGET_DEFAULT : ℚ := 11/10
def VACANCY_RATE_DEFAULT : ℚ := 3/100
def SALARIES_RATE_DEFAULT : ℚ := 5/100
def MAINTENANCE_FIXED_DEFAULT : ℚ := 610
def CONCIERGE_FIXED_DEFAULT : ℚ := 365

/-- fnum (template1_calcs.py 18-34) restricted to the Optional[float]
fields it is applied to in compute_template1: the identity. The string
parsing arm of fnum is never reached from the typed inputs modeled
here. -/
def fnum : Option ℚ → Option ℚ
  | none => none
  | some q => some q

/-- nz (template1_calcs.py 37-38) with the default value 0. -/
def nz : Option ℚ → ℚ
  | none => 0
  | some q => q

/-- safe_div (template1_calcs.py 41-45). -/
def safe_div (a b : Option ℚ) : Option ℚ :=
  match fnum a, fnum b with
  | some x, some y => if y = 0 then none else some (x / y)
  | _, _ => none

/-- pmt_monthly (template1_calcs.py 48-55). Division by a zero
payments_per_year (which raises in Python) is not modeled; every call in
the repository passes 12. -/
def pmt_monthly (principal annual_rate : ℚ) (years payments_per_year : ℕ) : ℚ :=
  let r := annual_rate / (payments_per_year : ℚ)
  let n := years * payments_per_year
  if n = 0 then 0
  else if r = 0 then principal / (n : ℚ)
  else principal * (r * (1 + r) ^ n) / ((1 + r) ^ n - 1)

/-- Template1Inputs (template1_calcs.py 70-100), with the same defaults. -/
structure Template1Inputs where
  price : Option ℚ := none
  units : Option Int := none
  revenu_brut_annuel : Option ℚ := none
  taxes_scolaires : Option ℚ := none
  taxes_municipales : Option ℚ := none
  assurances : Option ℚ := none
  services_publics : Option ℚ := none
  electricite : Option ℚ := none
  chauffage : Option ℚ := none
  deneigement : Option ℚ := none
  conciergerie : Option ℚ := none
  vacances_rate : ℚ := VACANCY_RATE_DEFAULT
  entretien_fixed : ℚ := MAINTENANCE_FIXED_DEFAULT
  salaires_rate : ℚ := SALARIES_RATE_DEFAULT
  qf : ℚ := QF_DEFAULT
  taux : ℚ := RATE_DEFAULT
  amort_years : ℕ := AMORT_YEARS_DEFAULT
  payments_per_year : ℕ := 12
  dscr_target : ℚ := DSCR_TARGET_DEFAULT
  cap_target_offer : ℚ := 5/100

/-- The output dictionary of compute_template1 (template1_calcs.py
176-208), one field per key. -/
structure Template1Out where
  price : Option ℚ
  units : Option Int
  revenu_brut_annuel : Option ℚ
  depenses_vraies : ℚ
  depenses_fausses : ℚ
  depenses_totales : ℚ
  noi_avant_norm : Option ℚ
  noi : Option ℚ
  cap_rate : Option ℚ
  noi_pct : Option ℚ
  qf : ℚ
  loan : Option ℚ
  down_payment : Option ℚ
  taux : ℚ
  amort_years : ℕ
  pmt_monthly : Option ℚ
  ds_annual : Option ℚ
  dscr : Option ℚ
  dscr_target : ℚ
  noi_required : Option ℚ
  cashflow : Option ℚ
  cap_target_offer : ℚ
  offre_max : Option ℚ
  valeur : Option ℚ
  refinance_cash : Option ℚ

/-- compute_template1 (template1_calcs.py 103-209). -/
def compute_template1 (inp : Template1Inputs) : Template1Out :=
  let price := fnum inp.price
  let gross := fnum inp.revenu_brut_annuel
  -- concierge defaults to CONCIERGE_FIXED_DEFAULT when absent (109-110)
  let concierge : ℚ :=
    match fnum inp.conciergerie with
    | none => CONCIERGE_FIXED_DEFAULT
    | some c => c
  let depenses_vraies :=
    nz inp.taxes_scolaires + nz inp.taxes_municipales + nz inp.assurances +
    nz inp.services_publics + nz inp.electricite + nz inp.chauffage +
    nz inp.deneigement + concierge
  let noi_avant_norm := gross.map fun g => g - depenses_vraies
  let vacances := gross.map fun g => g * inp.vacances_rate
  let salaires := gross.map fun g => g * inp.salaires_rate
  let entretien := inp.entretien_fixed
  let depenses_fausses := nz vacances + nz salaires + entretien
  let depenses_totales := depenses_vraies + depenses_fausses
  let noi := gross.map fun g => g - depenses_totales
  let cap_rate := safe_div noi price
  let loan := price.map fun p => p * inp.qf
  let down := price.map fun p => p - p * inp.qf
  let pmt := loan.map fun l =>
    pmt_monthly l inp.taux inp.amort_years inp.payments_per_year
  let ds_annual := pmt.map fun m => m * (inp.payments_per_year : ℚ)
  let dscr := safe_div noi ds_annual
  let noi_required := ds_annual.map fun d => d * inp.dscr_target
  let cashflow :=
    match noi, ds_annual with
    | some x, some y => some (x - y)
    | _, _ => none
  let offre_max :=
    match noi with
    | some x =>
        if inp.cap_target_offer ≠ 0 ∧ 0 < inp.cap_target_offer then
          some (x / inp.cap_target_offer)
        else none
    | none => none
  let valeur := offre_max
  let refinance_cash :=
    match valeur, price with
    | some v, some p => some (v * inp.qf - p * inp.qf)
    | _, _ => none
  let noi_pct := safe_div noi gross
  { price := price
    units := inp.units
    revenu_brut_annuel := gross
    depenses_vraies := depenses_vraies
    depenses_fausses := depenses_fausses
    depenses_totales := depenses_totales
    noi_avant_norm := noi_avant_norm
    noi := noi
    cap_rate := cap_rate
    noi_pct := noi_pct
    qf := inp.qf
    loan := loan
    down_payment := down
    taux := inp.taux
    amort_years := inp.amort_years
    pmt_monthly := pmt
    ds_annual := ds_annual
    dscr := dscr
    dscr_target := inp.dscr_target
    noi_required := noi_required
    cashflow := cashflow
    cap_target_offer := inp.cap_target_offer
    offre_max := offre_max
    valeur := valeur
    refinance_cash := refinance_cash }

/-! ## Listing selection from NEXT_DATA (centris_analyzer.py 230-311) -/

/-- LISTING_SIGNAL_KEYS (centris_analyzer.py 230-237). -/
def LISTING_SIGNAL_KEYS : List String :=
  ["taxes", "municipal", "school", "price", "prix",
   "grosspotentialrevenue", "revenusbrutspotentiels",
   "address", "city", "municipality", "borough", "district", "area",
   "units", "numberofunits", "unitcount",
   "building", "lot", "landarea",
   "id", "listingid", "centrisid", "mlsnumber", "propertyid"]

/-- Keys of an object, in order. -/
def JObj.keysList : JObj → List String
  | .nil => []
  | .cons k _ t => k :: JObj.keysList t

/-- _score_listing_candidate (centris_analyzer.py 240-258) on a dict. -/
def scoreListing (fs : JObj) : Int :=
  let keys := fs.keysList.map lowerString
  let hits := (LISTING_SIGNAL_KEYS.filter fun k => keys.contains k).length
  let score : Int := min (hits : Int) 12
  let score := if keys.contains "taxes" then score + 6 else score
  let score := if keys.contains "price" || keys.contains "prix" then score + 6 else score
  let score :=
    if keys.contains "grosspotentialrevenue" || keys.contains "revenusbrutspotentiels" then
      score + 6
    else score
  let score := if keys.contains "address" then score + 3 else score
  let score := if keys.contains "units" || keys.contains "numberofunits" then score + 3 else score
  score

/-- str(v).strip() for the id comparison of _dict_contains_centris_id.
Floats, lists and dicts are given no string form (no claim reaches
them); json null prints as None and booleans as True/False. -/
def pyStrForId : JVal → Option String
  | .jstr s => some (String.mk (stripWs s.data))
  | .jint n => some (toString n)
  | .jbool b => some (if b then "True" else "False")
  | .jnull => some "None"
  | _ => none

/-- The id-like key names of _dict_contains_centris_id (line 266). -/
def ID_KEYS : List String :=
  ["id", "listingid", "centrisid", "propertyid", "mlsnumber", "number", "reference"]

/-- _dict_contains_centris_id (centris_analyzer.py 261-269) on a dict
and a non-empty id string. -/
def dictContainsId (fs : JObj) (cid : String) : Bool :=
  match fs with
  | .nil => false
  | .cons k v t =>
      (ID_KEYS.contains (lowerString k) && pyStrForId v = some cid) || dictContainsId t cid

mutual

/-- _walk_find_listing_by_id (centris_analyzer.py 272-290): first dict in
preorder (node before children, children in insertion order) whose own
id-like field equals the id. -/
def findByIdJ (cid : String) : JVal → Option JVal
  | .jobj fs => if dictContainsId fs cid then some (.jobj fs) else findByIdO cid fs
  | .jarr xs => findByIdA cid xs
  | _ => none

def findByIdO (cid : String) : JObj → Option JVal
  | .nil => none
  | .cons _ v t =>
      match findByIdJ cid v with
      | some r => some r
      | none => findByIdO cid t

def findByIdA (cid : String) : JArr → Option JVal
  | .nil => none
  | .cons v t =>
      match findByIdJ cid v with
      | some r => some r
      | none => findByIdA cid t

end

mutual

/-- _walk_find_best_listing (centris_analyzer.py 293-311): preorder walk
keeping the first node of strictly maximal score. -/
def bestJ : JVal → Option JVal × Int → Option JVal × Int
  | .jobj fs, acc =>
      let sc := scoreListing fs
      bestO fs (if decide (acc.2 < sc) then (some (.jobj fs), sc) else acc)
  | .jarr xs, acc => bestA xs acc
  | _, acc => acc

def bestO : JObj → Option JVal × Int → Option JVal × Int
  | .nil, acc => acc
  | .cons _ v t, acc => bestO t (bestJ v acc)

def bestA : JArr → Option JVal × Int → Option JVal × Int
  | .nil, acc => acc
  | .cons v t, acc => bestA t (bestJ v acc)

end

/-! ## Field extraction from a listing (centris_analyzer.py 314-397) -/

/-- The field record produced by _extract_from_listing and
_fallback_text_extract. -/
structure Extracted where
  prix : Option Int
  revenu_brut_potentiel_annuel : Option Int
  taxes_municipales : Option Int
  taxes_scolaires : Option Int
  nb_logements : Option Int
  ville : Option String
  quartier : Option String
  type_propriete : Option String
  nb_etages : Option Int
  superficie_habitable_sqft : Option Int
  superficie_commerciale_sqft : Option Int
  superficie_totale_sqft : Option Int
  superficie_terrain_sqft : Option Int

/-- A sub-object of a listing taken only when it is a dict and truthy
(non-empty), the pattern of lines 325, 334, 349, 354, 367 and 379. -/
def subDict (fs : JObj) (key : String) : Option JObj :=
  match jgetPy fs key with
  | .jobj t => match t with
      | .nil => none
      | t => some t
  | _ => none

/-- _extract_from_listing (centris_analyzer.py 314-397). -/
def extract_from_listing (fs : JObj) : Extracted :=
  let prix := money_to_int (if fs.hasKey "price" then jgetPy fs "price" else jgetPy fs "prix")
  let revenuRaw :=
    match jgetPy fs "grossPotentialRevenue" with
    | .jnull => jgetPy fs "revenusBrutsPotentiels"
    | v => v
  let revenu_brut := money_to_int revenuRaw
  let taxesPair : Option Int × Option Int :=
    match subDict fs "taxes" with
    | some t =>
        (money_to_int (pyOr (pyOr (jgetPy t "municipal") (jgetPy t "municipales"))
            (jgetPy t "municipalTax")),
         money_to_int (pyOr (pyOr (jgetPy t "school") (jgetPy t "scolaires"))
            (jgetPy t "schoolTax")))
    | none => (none, none)
  let nb1 : Option Int :=
    match subDict fs "units" with
    | some u =>
        let res := as_int (pyOr (jgetPy u "residential") (jgetPy u "residentiel"))
        let com := as_int (jgetPy u "commercial")
        let total := as_int (jgetPy u "total")
        if optIntTruthy total then total
        else if res.isSome || com.isSome then some (res.getD 0 + com.getD 0)
        else none
    | none => none
  let nb_logements : Option Int :=
    match nb1 with
    | some v => some v
    | none =>
        as_int (pyOr (pyOr (jgetPy fs "numberOfUnits") (jgetPy fs "nbLogements"))
          (jgetPy fs "unitCount"))
  let villeQuartier1 : Option String × Option String :=
    match subDict fs "location" with
    | some l =>
        (as_str (pyOr (jgetPy l "city") (jgetPy l "municipality")),
         as_str (pyOr (pyOr (jgetPy l "borough") (jgetPy l "district")) (jgetPy l "area")))
    | none => (none, none)
  let addr := subDict fs "address"
  let ville : Option String :=
    match villeQuartier1.1 with
    | some v => some v
    | none =>
        match addr with
        | some a => as_str (pyOr (jgetPy a "city") (jgetPy a "municipality"))
        | none => none
  let quartier : Option String :=
    match villeQuartier1.2 with
    | some q => some q
    | none =>
        match addr with
        | some a => as_str (pyOr (jgetPy a "borough") (jgetPy a "district"))
        | none => none
  let type_propriete :=
    as_str (pyOr (pyOr (jgetPy fs "propertyType") (jgetPy fs "typePropriete"))
      (jgetPy fs "buildingType"))
  let bld := subDict fs "building"
  let nb_etages :=
    match bld with
    | some b => as_int (pyOr (jgetPy b "floors") (jgetPy b "numberOfFloors"))
    | none => none
  let supH :=
    match bld with
    | some b => as_int (pyOr (jgetPy b "livingArea") (jgetPy b "habitableArea"))
    | none => none
  let supC :=
    match bld with
    | some b => as_int (pyOr (jgetPy b "commercialArea") (jgetPy b "commercialAvailableArea"))
    | none => none
  let supT : Option Int :=
    if supH.isSome || supC.isSome then some (supH.getD 0 + supC.getD 0) else none
  let supTer :=
    match subDict fs "lot" with
    | some l => as_int (pyOr (jgetPy l "landArea") (jgetPy l "area"))
    | none => none
  { prix := prix
    revenu_brut_potentiel_annuel := revenu_brut
    taxes_municipales := taxesPair.1
    taxes_scolaires := taxesPair.2
    nb_logements := nb_logements
    ville := ville
    quartier := quartier
    type_propriete := type_propriete
    nb_etages := nb_etages
    superficie_habitable_sqft := supH
    superficie_commerciale_sqft := supC
    superficie_totale_sqft := supT
    superficie_terrain_sqft := supTer }

/-- _price_is_phantom (centris_analyzer.py 400-410). -/
def price_is_phantom : Option Int → Option Int → Bool
  | none, _ => true
  | some p, rev =>
      if p ≤ 0 then true
      else if 15000000 ≤ p then true
      else if p < 20000 then true
      else
        match rev with
        | some r =>
            -- (prix / revenu) > 60 in exact arithmetic: for the guarded
            -- positive r this is 60 * r < p
            if r != 0 && decide (0 < r) then decide (60 * r < p) else false
        | none => false

/-! ## The document abstraction

A Doc carries the intermediate data that the raw-HTML lexing layer of
centris_analyzer.py (regular expressions over the markup, BeautifulSoup
text extraction, json.loads) hands to the verified logic:

* centrisId - the result of _extract_centris_id_from_html (none when no
  id pattern matches);
* jsonldBlocks - the parsed JSON-LD script blocks, in document order,
  with unparseable blocks dropped (json.loads failures are skipped by
  the source);
* metaDescs - the contents of the og/twitter/description meta tags that
  are present, in the priority order the source tries them;
* textLines - the visible text lines (after non-breaking spaces have
  been replaced by plain spaces, as the source does at line 198);
* nextData - the parsed NEXT_DATA payload (none when absent or
  unparseable);
* fbPrixRaw, fbRevenuRaw, fbMunRaw, fbScoRaw, fbTypePropriete - the raw
  regex captures of _fallback_text_extract (lines 422-441), none when
  the corresponding pattern does not match.

The empty HTML document (and a None input) corresponds to the default
Doc with no data in any field. -/
structure Doc where
  centrisId : Option String := none
  jsonldBlocks : List JVal := []
  metaDescs : List String := []
  textLines : List String := []
  nextData : Option JVal := none
  fbPrixRaw : Option String := none
  fbRevenuRaw : Option String := none
  fbMunRaw : Option String := none
  fbScoRaw : Option String := none
  fbTypePropriete : Option String := none

/-! ## The money-amount regex

The patterns of centris_analyzer.py lines 191, 210 and 220 all find
non-overlapping matches of: a digit, then at least two characters drawn
from digits, whitespace, comma and dot, then optional whitespace, then a
dollar sign; the capture group is the part before the optional
whitespace and the dollar sign (greedy matching keeps the group as long
as possible, backtracking only over trailing whitespace, and never below
two class characters). moneyTokensGo implements exactly this scan; the
fuel argument only serves termination and is always at least the length
of the remaining text. -/

/-- The bracket class of the money regex: digits, whitespace, comma,
dot. -/
def moneyClassChar (c : Char) : Bool :=
  c.isDigit || isPySpace c || c = ',' || c = '.'

/-- One pass of re.finditer for the money pattern. -/
def moneyTokensGo : ℕ → List Char → List String
  | 0, _ => []
  | _, [] => []
  | fuel + 1, c :: rest =>
      if c.isDigit then
        let run := rest.takeWhile moneyClassChar
        match rest.drop run.length with
        | '$' :: rest2 =>
            if 2 ≤ run.length then
              let keep := max 2 (run.length - (run.reverse.takeWhile isPySpace).length)
              String.mk (c :: run.take keep) :: moneyTokensGo fuel rest2
            else moneyTokensGo fuel rest
        | _ => moneyTokensGo fuel rest
      else moneyTokensGo fuel rest

/-- All money-pattern capture groups of a string, left to right. -/
def moneyTokens (s : String) : List String := moneyTokensGo s.data.length s.data

/-- Candidate collection of lines 209-213 and 219-223: parse every
capture group and keep the truthy values of at least 20000. -/
def collectCands (s : String) : List Int :=
  ((moneyTokens s).filterMap money_to_int_str).filter fun p => p != 0 && decide (20000 ≤ p)

/-- Python max() on a list of ints, none on the empty list (the source
only calls it on non-empty lists). -/
def maxList : List Int → Option Int
  | [] => none
  | h :: t => some (t.foldl max h)

/-- Substring test (the Python in operator on strings). -/
def containsSub (pat : List Char) : List Char → Bool
  | [] => pat.isEmpty
  | c :: t => pat.isPrefixOf (c :: t) || containsSub pat t

/-! ## Price extraction (centris_analyzer.py 123-224) -/

/-- Elements of a JSON array as a Lean list. -/
def JArr.toList : JArr → List JVal
  | .nil => []
  | .cons v t => v :: JArr.toList t

/-- The loop over a list-shaped offers value (lines 154-159): the first
offer whose price field is present and parses to a truthy value. -/
def offersListLoop : JArr → Option Int
  | .nil => none
  | .cons (.jobj ofs) t =>
      (match ofs.get "price" with
       | some .jnull => offersListLoop t
       | some v =>
           match money_to_int v with
           | some p => if p != 0 then some p else offersListLoop t
           | none => offersListLoop t
       | none => offersListLoop t)
  | .cons _ t => offersListLoop t

/-- The candidate loop inside one JSON-LD block (lines 144-159). The
outer option distinguishes an early return of the whole function (some,
possibly carrying none: a dict-shaped offers with a present but
unparseable price returns None for the whole extraction) from falling
through to the next block (none). -/
def scanCandidates : List JVal → Option (Option Int)
  | [] => none
  | .jobj fs :: t =>
      (match fs.get "offers" with
       | some (.jobj ofs) =>
           (match ofs.get "price" with
            | some .jnull => scanCandidates t
            | some v => some (money_to_int v)
            | none => scanCandidates t)
       | some (.jarr offs) =>
           (match offersListLoop offs with
            | some p => some (some p)
            | none => scanCandidates t)
       | _ => scanCandidates t)
  | _ :: t => scanCandidates t

/-- _extract_price_from_jsonld (centris_analyzer.py 123-161) over the
parsed script blocks. -/
def extract_price_from_jsonld : List JVal → Option Int
  | [] => none
  | b :: t =>
      let cands :=
        match b with
        | .jarr xs => xs.toList
        | v => [v]
      match scanCandidates cands with
      | some r => r
      | none => extract_price_from_jsonld t

/-- The meta-description loop of lines 182-195: for each meta text in
priority order, the first money capture group is parsed; a truthy value
of at least 20000 is returned, anything else moves to the next text. -/
def metaLoop : List String → Option Int
  | [] => none
  | txt :: rest =>
      match (moneyTokens txt).head? with
      | some tok =>
          (match money_to_int_str tok with
           | some p => if p != 0 && decide (20000 ≤ p) then some p else metaLoop rest
           | none => metaLoop rest)
      | none => metaLoop rest

/-- Step 3 of _extract_display_price_from_header (lines 217-224): all
plausible candidates in the first 420 lines, keeping the maximum. -/
def headerTop (lines : List String) : Option Int :=
  maxList (collectCands (String.intercalate "\n" (lines.take 420)))

/-- Step 2 of _extract_display_price_from_header (lines 200-215): a
window of 80 lines after the first for-sale anchor within the first 700
lines; the maximum plausible candidate in the window, else step 3. -/
def headerWindow (lines : List String) : Option Int :=
  match (lines.take 700).findIdx? (fun ln => containsSub "à vendre".data (lowerString ln).data) with
  | some idx =>
      (match maxList (collectCands (String.intercalate "\n" ((lines.drop idx).take 80))) with
       | some m => some m
       | none => headerTop lines)
  | none => headerTop lines

/-- Steps 1-3 of _extract_display_price_from_header. -/
def headerAfterJsonld (d : Doc) : Option Int :=
  match metaLoop d.metaDescs with
  | some p => some p
  | none => headerWindow d.textLines

/-- _extract_display_price_from_header (centris_analyzer.py 164-224). -/
def extract_display_price_from_header (d : Doc) : Option Int :=
  match extract_price_from_jsonld d.jsonldBlocks with
  | some p =>
      if p != 0 && decide (20000 ≤ p) then some p
      else headerAfterJsonld d
  | none => headerAfterJsonld d

/-! ## Text fallback and the main analyzer (centris_analyzer.py 416-585) -/

/-- _fallback_text_extract (centris_analyzer.py 416-457), applied to the
raw regex captures carried by the Doc. -/
def fallback_extract (d : Doc) : Extracted :=
  { prix := d.fbPrixRaw.bind money_to_int_str
    revenu_brut_potentiel_annuel := d.fbRevenuRaw.bind money_to_int_str
    taxes_municipales := d.fbMunRaw.bind money_to_int_str
    taxes_scolaires := d.fbScoRaw.bind money_to_int_str
    nb_logements := none
    ville := none
    quartier := none
    type_propriete := d.fbTypePropriete
    nb_etages := none
    superficie_habitable_sqft := none
    superficie_commerciale_sqft := none
    superficie_totale_sqft := none
    superficie_terrain_sqft := none }

/-- The outcome of the NEXT_DATA selection block (lines 507-522),
together with the debug values it sets. -/
structure NextSel where
  has_next_data : Bool
  picked_mode : Option String
  best_listing_score : Option Int
  extracted : Option Extracted

/-- Best-score selection (lines 517-522). -/
def bestBranch (nd : JVal) : NextSel :=
  let bs := bestJ nd (none, -999)
  let extracted :=
    match bs.1 with
    | some (.jobj fs) => if decide (8 ≤ bs.2) then some (extract_from_listing fs) else none
    | _ => none
  ⟨true, some "best_score", some bs.2, extracted⟩

/-- Lines 507-522 of analyser_centris: the NEXT_DATA block. The payload
is only entered when it is truthy; a non-empty centris id selects a
listing by id first. -/
def selectNext (d : Doc) : NextSel :=
  match d.nextData with
  | none => ⟨false, none, none, none⟩
  | some nd =>
      if jtruthy nd then
        let byId :=
          match d.centrisId with
          | some cid => if cid = "" then none else findByIdJ cid nd
          | none => none
        match byId with
        | some (.jobj fs) =>
            if jtruthy (.jobj fs) then ⟨true, some "by_id", none, some (extract_from_listing fs)⟩
            else bestBranch nd
        | some _ => bestBranch nd
        | none => bestBranch nd
      else ⟨false, none, none, none⟩

/-- The final price decision (lines 527-536 and 559-569): the display
price wins when truthy with source header; otherwise the raw candidate
runs through the phantom filter with the given source tag. -/
structure PriceRes where
  prix : Option Int
  source : Option String
  filtered : Bool

def resolvePrice (display : Option Int) (tag : String) (raw rev : Option Int) : PriceRes :=
  if optIntTruthy display then ⟨display, some "header", false⟩
  else if price_is_phantom raw rev then ⟨none, some tag, true⟩
  else ⟨raw, some tag, false⟩

/-- The property_overview group of the output record. -/
structure PropertyOverview where
  type_propriete : Option String
  ville : Option String
  quartier : Option String
  nb_logements : Option Int
  nb_etages : Option Int
  superficie_habitable_sqft : Option Int
  superficie_commerciale_sqft : Option Int
  superficie_totale_sqft : Option Int
  superficie_terrain_sqft : Option Int
  prix : Option Int

/-- The revenus group of the output record. -/
structure Revenus where
  revenu_brut_potentiel_annuel : Option Int

/-- The depenses_vraies group of the output record. -/
structure DepensesVraies where
  taxes_municipales : Option Int
  taxes_scolaires : Option Int
  assurances : Option Int
  services_publics : Option Int
  electricite : Option Int
  chauffage : Option Int
  deneigement : Option Int
  autres_depenses_connues : Option Int

/-- The raw_debug group of the output record. -/
structure RawDebug where
  has_next_data : Bool
  centris_id : Option String
  picked_mode : Option String
  best_listing_score : Option Int
  display_price : Option Int
  price_source : Option String
  phantom_filtered : Bool

/-- The full output record of analyser_centris. -/
structure AnalyzerOut where
  analyzer_version : String
  property_overview : PropertyOverview
  revenus : Revenus
  depenses_vraies : DepensesVraies
  raw_debug : RawDebug

def ANALYZER_VERSION : String := "v6-2025-12-28-money-jsonld-price"

/-- Assembly of the output record from an extracted field record, shared
by the NEXT_DATA branch (lines 524-553) and the fallback branch (lines
555-585); the branches differ only in the picked mode, the source tag and the
field record used. -/
def buildOut (d : Doc) (sel : NextSel) (display : Option Int) (picked : Option String)
    (tag : String) (e : Extracted) : AnalyzerOut :=
  let pr := resolvePrice display tag e.prix e.revenu_brut_potentiel_annuel
  { analyzer_version := ANALYZER_VERSION
    property_overview :=
      { type_propriete := e.type_propriete
        ville := e.ville
        quartier := e.quartier
        nb_logements := e.nb_logements
        nb_etages := e.nb_etages
        superficie_habitable_sqft := e.superficie_habitable_sqft
        superficie_commerciale_sqft := e.superficie_commerciale_sqft
        superficie_totale_sqft := e.superficie_totale_sqft
        superficie_terrain_sqft := e.superficie_terrain_sqft
        prix := pr.prix }
    revenus := ⟨e.revenu_brut_potentiel_annuel⟩
    depenses_vraies :=
      { taxes_municipales := e.taxes_municipales
        taxes_scolaires := e.taxes_scolaires
        assurances := none
        services_publics := none
        electricite := none
        chauffage := none
        deneigement := none
        autres_depenses_connues := none }
    raw_debug :=
      { has_next_data := sel.has_next_data
        centris_id := d.centrisId
        picked_mode := picked
        best_listing_score := sel.best_listing_score
        display_price := display
        price_source := pr.source
        phantom_filtered := pr.filtered } }

/-- analyser_centris (centris_analyzer.py 463-585). -/
def analyser_centris (d : Doc) : AnalyzerOut :=
  let display := extract_display_price_from_header d
  let sel := selectNext d
  match sel.extracted with
  | some e => buildOut d sel display sel.picked_mode "next_data" e
  | none => buildOut d sel display (some "fallback_text") "fallback" (fallback_extract d)

/-! ## Spec-side definitions used by the refinement claims -/

/-- The comma-disambiguation condition exactly as the specification
words it: the cleaned string contains a comma, no dot, and exactly two
digits follow the (first) comma. Written from the specification text,
not from the source. -/
def claimDecimalCond (l : List Char) : Bool :=
  l.contains ',' && !l.contains '.' &&
    (let post := (l.dropWhile fun c => c != ',').tail
     post.length = 2 && post.all Char.isDigit)

/-- The money normalizer as the specification describes it: the same
cleaning steps, with the comma treated as a decimal separator exactly
when claimDecimalCond holds and stripped as a thousands separator
otherwise. Written from the specification text, for comparison with
money_to_int_chars. -/
def money_to_int_claim (s : String) : Option Int :=
  let s2 := stripWs ((replNbsp s.data).filter keepMoneyChar)
  if s2.isEmpty then none else
  let s2b := s2.filter fun c => !isPySpace c
  if claimDecimalCond s2b then
    parseRound (s2b.map fun c => if c = ',' then '.' else c)
  else
    parseRound (s2b.filter fun c => c != ',')

/-- Shape of the part before the comma required by the amended
condition: an optional minus sign followed by at least one digit and
nothing else. -/
def preShape (pre : List Char) : Bool :=
  match pre with
  | '-' :: t => !t.isEmpty && t.all Char.isDigit
  | t => !t.isEmpty && t.all Char.isDigit

/-- The amended comma-disambiguation condition: additionally, what
precedes the (first) comma must be an optional minus sign followed by at
least one digit. -/
def amendedCond (l : List Char) : Bool :=
  claimDecimalCond l && preShape (l.takeWhile fun c => c != ',')

/-- The money normalizer as amended: decimal-comma treatment exactly on
amendedCond, thousands-separator treatment otherwise. -/
def money_to_int_amended (s : String) : Option Int :=
  let s2 := stripWs ((replNbsp s.data).filter keepMoneyChar)
  if s2.isEmpty then none else
  let s2b := s2.filter fun c => !isPySpace c
  if amendedCond s2b then
    parseRound (s2b.map fun c => if c = ',' then '.' else c)
  else
    parseRound (s2b.filter fun c => c != ',')

/-- The revenue figure the winning extraction strategy resolves, before
it is attached to the final record: the embedded-state value when the
NEXT_DATA selection produced a field record, the text-fallback value
otherwise. -/
def rawResolvedRevenue (d : Doc) : Option Int :=
  match (selectNext d).extracted with
  | some e => e.revenu_brut_potentiel_annuel
  | none => (fallback_extract d).revenu_brut_potentiel_annuel

/-! ## Concrete documents and inputs used by the witnesses and
counterexamples -/

/-- Build an object spine from a list of bindings. -/
def jobjOf : List (String × JVal) → JObj
  | [] => .nil
  | (k, v) :: t => .cons k v (jobjOf t)

/-- Build an array spine from a list of values. -/
def jarrOf : List JVal → JArr
  | [] => .nil
  | v :: t => .cons v (jarrOf t)

/-- The empty document: what the lexing layer produces from an empty or
non-string input. -/
def emptyDoc : Doc := {}

/-- A document whose JSON-LD block carries an offers.price of
26,908,000 (the price-ceiling example of the specification), and
nothing else. -/
def docCeiling : Doc :=
  { jsonldBlocks := [.jobj (jobjOf [("offers", .jobj (jobjOf [("price", .jint 26908000)]))])] }

/-- A document where the structured-metadata block yields price 500,000
and the embedded NEXT_DATA listing yields price 550,000 (the precedence
example of the specification). -/
def docPrecedence : Doc :=
  { jsonldBlocks := [.jobj (jobjOf [("offers", .jobj (jobjOf [("price", .jint 500000)]))])]
    nextData := some (.jobj (jobjOf
      [("price", .jint 550000),
       ("taxes", .jobj (jobjOf [("municipal", .jint 3000)])),
       ("grossPotentialRevenue", .jint 40000)])) }

/-- A document whose embedded listing resolves a gross revenue of 500
(below 1000). -/
def docSmallRevenue : Doc :=
  { nextData := some (.jobj (jobjOf
      [("price", .jint 200000),
       ("taxes", .jobj (jobjOf [("municipal", .jint 1000)])),
       ("grossPotentialRevenue", .jint 500)])) }

/-- A document whose embedded listing carries a negative municipal tax
string and a plausible price and revenue. -/
def docNegativeTax : Doc :=
  { nextData := some (.jobj (jobjOf
      [("price", .jint 100000),
       ("grossPotentialRevenue", .jint 50000),
       ("taxes", .jobj (jobjOf [("municipal", .jstr "-500")]))])) }

/-- A JSON-LD block list with two offers, the first of which parses to
5,000 (below the 20,000 floor) and the second to 500,000. -/
def blocksSmallFirst : List JVal :=
  [.jobj (jobjOf [("offers", .jarr (jarrOf
      [.jobj (jobjOf [("price", .jint 5000)]),
       .jobj (jobjOf [("price", .jint 500000)])]))])]

/-- A document carrying only blocksSmallFirst. -/
def docSmallFirst : Doc := { jsonldBlocks := blocksSmallFirst }

/-- Calculator inputs for the cashflow computation: price 240,000,
gross revenue 30,000, zero interest rate, everything else default. -/
def cashflowInputs : Template1Inputs :=
  { price := some 240000, revenu_brut_annuel := some 30000, taux := 0 }

/-! ## Helper lemmas: the integer rounding implementation agrees with
Python round() over exact rationals -/

theorem roundHalfEven_eq (a : Int) (d : ℕ) (hd : 0 < d) :
    roundHalfEven a d = pyRound ((a : ℚ) / (d : ℚ)) := by
  have hdq : (0 : ℚ) < (d : ℚ) := by exact_mod_cast hd
  have hdz : ((d : Int)) ≠ 0 := by exact_mod_cast hd.ne'
  have hfl : ⌊(a : ℚ) / (d : ℚ)⌋ = a / (d : Int) := Rat.floor_intCast_div_natCast a d
  have key : (a : ℚ) = (d : ℚ) * ((a / (d : Int) : Int) : ℚ) + ((a % (d : Int) : Int) : ℚ) := by
    exact_mod_cast congrArg (fun z : Int => (z : ℚ)) (Int.ediv_add_emod a (d : Int)).symm
  have requiv : (a : ℚ) / (d : ℚ) - ((a / (d : Int) : Int) : ℚ) =
      ((a % (d : Int) : Int) : ℚ) / (d : ℚ) := by
    rw [key]
    field_simp
  have h1 : ∀ x : Int, ((x : ℚ) / (d : ℚ) < 1 / 2) ↔ (2 * x < (d : Int)) := by
    intro x
    rw [div_lt_iff₀ hdq]
    constructor
    · intro h
      have : (2 * x : ℚ) < (d : ℚ) := by linarith
      exact_mod_cast this
    · intro h
      have : (2 * x : ℚ) < (d : ℚ) := by exact_mod_cast h
      linarith
  have h2 : ∀ x : Int, ((1 : ℚ) / 2 < (x : ℚ) / (d : ℚ)) ↔ ((d : Int) < 2 * x) := by
    intro x
    rw [lt_div_iff₀ hdq]
    constructor
    · intro h
      have : (d : ℚ) < (2 * x : ℚ) := by linarith
      exact_mod_cast this
    · intro h
      have : (d : ℚ) < (2 * x : ℚ) := by exact_mod_cast h
      linarith
  unfold roundHalfEven pyRound
  simp only [hfl, requiv]
  by_cases hc1 : 2 * (a % (d : Int)) < (d : Int)
  · rw [if_pos hc1, if_pos ((h1 _).mpr hc1)]
  · rw [if_neg hc1, if_neg (fun h => hc1 ((h1 _).mp h))]
    by_cases hc2 : (d : Int) < 2 * (a % (d : Int))
    · rw [if_pos hc2, if_pos ((h2 _).mpr hc2)]
    · rw [if_neg hc2, if_neg (fun h => hc2 ((h2 _).mp h))]

theorem parseRound_eq (l : List Char) : parseRound l = (parseFloat l).map pyRound := by
  unfold parseRound parseFloat
  cases h : parseParts l with
  | none => rfl
  | some q =>
      obtain ⟨neg, I, F, k⟩ := q
      simp only [Option.map]
      have hd : 0 < 10 ^ k := pow_pos (by norm_num) k
      rw [roundHalfEven_eq _ _ hd]
      congr 1
      have hpz : ((10 : ℚ)) ^ k ≠ 0 := by positivity
      cases neg <;> push_cast <;> field_simp

/-! ## Helper lemmas: the display-price extractor only returns values of
at least 20000 -/

theorem maxList_ge {l : List Int} {m : Int} (h : maxList l = some m)
    (hall : ∀ x ∈ l, 20000 ≤ x) : 20000 ≤ m := by
  cases l with
  | nil => simp [maxList] at h
  | cons h0 t =>
      have hm : m = t.foldl max h0 := by simpa [maxList] using h.symm
      subst hm
      have aux : ∀ (t : List Int) (acc : Int), 20000 ≤ acc → 20000 ≤ t.foldl max acc := by
        intro t
        induction t with
        | nil => intro acc hacc; simpa using hacc
        | cons x xs ih =>
            intro acc hacc
            exact ih (max acc x) (le_trans hacc (le_max_left _ _))
      exact aux t h0 (hall h0 (by simp))

theorem collectCands_ge {s : String} {p : Int} (h : p ∈ collectCands s) : 20000 ≤ p := by
  unfold collectCands at h
  rw [List.mem_filter] at h
  have h2 := h.2
  simp only [Bool.and_eq_true, decide_eq_true_eq] at h2
  exact h2.2

theorem headerTop_ge {lines : List String} {p : Int} (h : headerTop lines = some p) :
    20000 ≤ p :=
  maxList_ge h fun _ hx => collectCands_ge hx

theorem headerWindow_ge {lines : List String} {p : Int} (h : headerWindow lines = some p) :
    20000 ≤ p := by
  unfold headerWindow at h
  split at h
  · split at h
    · next heq =>
        cases h
        exact maxList_ge heq fun _ hx => collectCands_ge hx
    · exact headerTop_ge h
  · exact headerTop_ge h

theorem metaLoop_ge {ls : List String} {p : Int} (h : metaLoop ls = some p) : 20000 ≤ p := by
  induction ls with
  | nil => simp [metaLoop] at h
  | cons txt rest ih =>
      unfold metaLoop at h
      split at h
      · split at h
        · split at h
          · next hguard =>
              cases h
              simp only [Bool.and_eq_true, decide_eq_true_eq] at hguard
              exact hguard.2
          · exact ih h
        · exact ih h
      · exact ih h

theorem headerAfterJsonld_ge {d : Doc} {p : Int} (h : headerAfterJsonld d = some p) :
    20000 ≤ p := by
  unfold headerAfterJsonld at h
  split at h
  · next heq => cases h; exact metaLoop_ge heq
  · exact headerWindow_ge h

theorem display_price_ge {d : Doc} {p : Int}
    (h : extract_display_price_from_header d = some p) : 20000 ≤ p := by
  unfold extract_display_price_from_header at h
  split at h
  · split at h
    · next hguard =>
        cases h
        simp only [Bool.and_eq_true, decide_eq_true_eq] at hguard
        exact hguard.2
    · exact headerAfterJsonld_ge h
  · exact headerAfterJsonld_ge h

/-! ## Helper lemmas: the phantom filter and the price resolution -/

theorem phantom_false_spec {p : Int} {rev : Option Int}
    (h : price_is_phantom (some p) rev = false) :
    0 < p ∧ p < 15000000 ∧ 20000 ≤ p ∧
      ∀ r, rev = some r → 0 < r → (p : ℚ) / (r : ℚ) ≤ 60 := by
  cases rev with
  | none =>
      simp only [price_is_phantom] at h
      split at h
      · simp at h
      next hp1 =>
      split at h
      · simp at h
      next hp2 =>
      split at h
      · simp at h
      next hp3 =>
      exact ⟨by omega, by omega, by omega, by intro r hre; cases hre⟩
  | some r =>
      simp only [price_is_phantom] at h
      split at h
      · simp at h
      next hp1 =>
      split at h
      · simp at h
      next hp2 =>
      split at h
      · simp at h
      next hp3 =>
      refine ⟨by omega, by omega, by omega, ?_⟩
      intro r2 hre hr
      injection hre with hre
      subst hre
      have hg : (r != 0 && decide (0 < r)) = true := by
        simp only [Bool.and_eq_true, bne_iff_ne, ne_eq, decide_eq_true_eq]
        exact ⟨by omega, hr⟩
      rw [if_pos hg] at h
      simp only [decide_eq_false_iff_not, not_lt] at h
      have hrq : (0 : ℚ) < (r : ℚ) := by exact_mod_cast hr
      rw [div_le_iff₀ hrq]
      calc (p : ℚ) ≤ ((60 * r : Int) : ℚ) := by exact_mod_cast h
        _ = 60 * (r : ℚ) := by push_cast; ring

theorem resolvePrice_header {display : Option Int} {tag : String} {raw rev : Option Int}
    (h : optIntTruthy display = true) :
    resolvePrice display tag raw rev = ⟨display, some "header", false⟩ := by
  unfold resolvePrice
  rw [if_pos h]

theorem resolvePrice_prix_ge {display : Option Int} {tag : String} {raw rev : Option Int}
    {p : Int} (hdisp : ∀ q, display = some q → 20000 ≤ q)
    (hp : (resolvePrice display tag raw rev).prix = some p) : 20000 ≤ p := by
  unfold resolvePrice at hp
  by_cases hd : optIntTruthy display = true
  · rw [if_pos hd] at hp
    exact hdisp p hp
  · rw [if_neg hd] at hp
    by_cases hph : price_is_phantom raw rev = true
    · rw [if_pos hph] at hp
      exact absurd hp (by simp)
    · rw [if_neg hph] at hp
      have hp2 : raw = some p := hp
      have hfalse : price_is_phantom raw rev = false := by simpa using hph
      rw [hp2] at hfalse
      exact (phantom_false_spec hfalse).2.2.1

theorem resolvePrice_filtered {display : Option Int} {tag : String} {raw rev : Option Int}
    {p : Int}
    (hsrc : (resolvePrice display tag raw rev).source ≠ some "header")
    (hp : (resolvePrice display tag raw rev).prix = some p) :
    raw = some p ∧ price_is_phantom (some p) rev = false := by
  unfold resolvePrice at hsrc hp
  by_cases hd : optIntTruthy display = true
  · rw [if_pos hd] at hsrc
    exact absurd rfl hsrc
  · rw [if_neg hd] at hp
    by_cases hph : price_is_phantom raw rev = true
    · rw [if_pos hph] at hp
      exact absurd hp (by simp)
    · rw [if_neg hph] at hp
      have hp2 : raw = some p := hp
      have hfalse : price_is_phantom raw rev = false := by simpa using hph
      rw [hp2] at hfalse
      exact ⟨hp2, hfalse⟩

/-! ## Helper lemmas: dispatch and projections of analyser_centris -/

theorem analyser_eq_next {d : Doc} {e : Extracted} (h : (selectNext d).extracted = some e) :
    analyser_centris d =
      buildOut d (selectNext d) (extract_display_price_from_header d)
        (selectNext d).picked_mode "next_data" e := by
  simp only [analyser_centris]
  rw [h]

theorem analyser_eq_fallback {d : Doc} (h : (selectNext d).extracted = none) :
    analyser_centris d =
      buildOut d (selectNext d) (extract_display_price_from_header d)
        (some "fallback_text") "fallback" (fallback_extract d) := by
  simp only [analyser_centris]
  rw [h]

theorem buildOut_prix (d : Doc) (sel : NextSel) (display : Option Int)
    (picked : Option String) (tag : String) (e : Extracted) :
    (buildOut d sel display picked tag e).property_overview.prix =
      (resolvePrice display tag e.prix e.revenu_brut_potentiel_annuel).prix := rfl

theorem buildOut_source (d : Doc) (sel : NextSel) (display : Option Int)
    (picked : Option String) (tag : String) (e : Extracted) :
    (buildOut d sel display picked tag e).raw_debug.price_source =
      (resolvePrice display tag e.prix e.revenu_brut_potentiel_annuel).source := rfl

theorem buildOut_filtered (d : Doc) (sel : NextSel) (display : Option Int)
    (picked : Option String) (tag : String) (e : Extracted) :
    (buildOut d sel display picked tag e).raw_debug.phantom_filtered =
      (resolvePrice display tag e.prix e.revenu_brut_potentiel_annuel).filtered := rfl

theorem buildOut_revenu (d : Doc) (sel : NextSel) (display : Option Int)
    (picked : Option String) (tag : String) (e : Extracted) :
    (buildOut d sel display picked tag e).revenus.revenu_brut_potentiel_annuel =
      e.revenu_brut_potentiel_annuel := rfl

/-! ## Claims about the analyzer -/

/-- C2 (counterexample): the claim says the final resolved price always
satisfies the plausibility filter, in particular that a price of
26,908,000 (above the 15,000,000 ceiling) is rejected regardless of the
source. On docCeiling, whose structured-metadata block carries exactly
that price, the final price is 26,908,000: the header path bypasses the
filter. -/
theorem C2_counterexample :
    (analyser_centris docCeiling).property_overview.prix = some 26908000 ∧
    ¬ ((26908000 : Int) < 15000000) := by
  constructor
  · decide
  · decide

/-- C2 (amended): the plausibility filter is only applied when the
price does not come from the display-price header path: whenever the
price source of the final record is not the header, a resolved price is
positive, below 15,000,000, and satisfies the gross-rent-multiplier
bound relative to the resolved revenue. -/
theorem C2_amended (d : Doc) (p : Int)
    (hsrc : (analyser_centris d).raw_debug.price_source ≠ some "header")
    (hp : (analyser_centris d).property_overview.prix = some p) :
    0 < p ∧ p < 15000000 ∧
      ∀ r, (analyser_centris d).revenus.revenu_brut_potentiel_annuel = some r →
        0 < r → (p : ℚ) / (r : ℚ) ≤ 60 := by
  rcases hsel : (selectNext d).extracted with _ | e
  · rw [analyser_eq_fallback hsel, buildOut_source] at hsrc
    rw [analyser_eq_fallback hsel, buildOut_prix] at hp
    obtain ⟨hraw, hph⟩ := resolvePrice_filtered hsrc hp
    obtain ⟨h1, h2, h3, h4⟩ := phantom_false_spec hph
    refine ⟨h1, h2, ?_⟩
    intro r hr hrp
    rw [analyser_eq_fallback hsel, buildOut_revenu] at hr
    exact h4 r hr hrp
  · rw [analyser_eq_next hsel, buildOut_source] at hsrc
    rw [analyser_eq_next hsel, buildOut_prix] at hp
    obtain ⟨hraw, hph⟩ := resolvePrice_filtered hsrc hp
    obtain ⟨h1, h2, h3, h4⟩ := phantom_false_spec hph
    refine ⟨h1, h2, ?_⟩
    intro r hr hrp
    rw [analyser_eq_next hsel, buildOut_revenu] at hr
    exact h4 r hr hrp

/-- C2 (witness): the amended theorem applied to docNegativeTax, whose
price 100,000 comes from the embedded payload (source tag next_data)
with revenue 50,000. -/
theorem C2_witness : (100000 : ℚ) / (50000 : ℚ) ≤ 60 :=
  (C2_amended docNegativeTax 100000 (by decide) (by decide)).2.2 50000 (by decide) (by decide)

/-- C5 (counterexample): the claim says a resolved revenue below 1000 is
multiplied by 1000 before being attached to the final record. On
docSmallRevenue the embedded extractor resolves revenue 500, and the
final record carries 500, not 500,000: no such correction exists in the
code. -/
theorem C5_counterexample :
    (analyser_centris docSmallRevenue).revenus.revenu_brut_potentiel_annuel = some 500 ∧
    (500 : Int) < 1000 ∧
    (analyser_centris docSmallRevenue).revenus.revenu_brut_potentiel_annuel ≠
      some (500 * 1000) := by
  refine ⟨by decide, by decide, by decide⟩

/-- C5 (amended): the pipeline applies no abbreviated-thousands
correction: the revenue figure resolved by the winning extraction
strategy is attached to the final record unchanged, whatever its
magnitude. -/
theorem C5_amended (d : Doc) :
    (analyser_centris d).revenus.revenu_brut_potentiel_annuel = rawResolvedRevenue d := by
  rcases hsel : (selectNext d).extracted with _ | e
  · rw [analyser_eq_fallback hsel, buildOut_revenu]
    unfold rawResolvedRevenue
    rw [hsel]
  · rw [analyser_eq_next hsel, buildOut_revenu]
    unfold rawResolvedRevenue
    rw [hsel]

/-- C6 (counterexample): the claim says that when the structured
metadata yields 500,000 and the embedded state yields 550,000, the price
source tag identifies the structured-metadata source (tag structured).
On docPrecedence the final price is indeed 500,000, but the recorded tag
is header (the display-price extractor), not structured. -/
theorem C6_counterexample :
    (analyser_centris docPrecedence).property_overview.prix = some 500000 ∧
    (analyser_centris docPrecedence).raw_debug.price_source = some "header" ∧
    (analyser_centris docPrecedence).raw_debug.price_source ≠ some "structured" := by
  refine ⟨by decide, by decide, by decide⟩

/-- C6 (amended): whenever the structured-metadata (JSON-LD) extraction
yields 500,000, the final resolved price is 500,000 - the embedded-state
candidate is ignored - and the price source tag is header, the name the
code gives the display-price extractor whose first strategy is the
structured metadata block. -/
theorem C6_amended (d : Doc)
    (hj : extract_price_from_jsonld d.jsonldBlocks = some 500000) :
    (analyser_centris d).property_overview.prix = some 500000 ∧
    (analyser_centris d).raw_debug.price_source = some "header" := by
  have hd : extract_display_price_from_header d = some 500000 := by
    unfold extract_display_price_from_header
    rw [hj]
    exact if_pos (by decide)
  have htr : optIntTruthy (extract_display_price_from_header d) = true := by
    rw [hd]
    rfl
  rcases hsel : (selectNext d).extracted with _ | e
  · constructor
    · rw [analyser_eq_fallback hsel, buildOut_prix, resolvePrice_header htr]
      exact hd
    · rw [analyser_eq_fallback hsel, buildOut_source, resolvePrice_header htr]
  · constructor
    · rw [analyser_eq_next hsel, buildOut_prix, resolvePrice_header htr]
      exact hd
    · rw [analyser_eq_next hsel, buildOut_source, resolvePrice_header htr]

/-- C6 (witness): the amended theorem applied to docPrecedence. -/
theorem C6_witness :
    (analyser_centris docPrecedence).property_overview.prix = some 500000 ∧
    (analyser_centris docPrecedence).raw_debug.price_source = some "header" :=
  C6_amended docPrecedence (by decide)

/-- C7 (counterexample): the claim says the structured-metadata price
extraction skips offers.price values below 20,000 so that a later offer
can win. On blocksSmallFirst (offers 5,000 then 500,000) the extraction
returns 5,000 - the first truthy parse - which is below the floor; the
later plausible offer does not win. -/
theorem C7_counterexample :
    extract_price_from_jsonld blocksSmallFirst = some 5000 ∧
    ¬ ((20000 : Int) ≤ 5000) := by
  refine ⟨by decide, by decide⟩

/-- C7 (amended): the JSON-LD extraction itself applies no floor: it
returns the first parsed offers.price (the first truthy parse for a list
of offers), even below 20,000; the 20,000 floor is enforced afterwards
by the display-price extractor, which then ignores the JSON-LD result
entirely (on docSmallFirst it yields nothing) rather than trying later
offers; every price the display-price extractor does return is at least
20,000. -/
theorem C7_amended :
    extract_price_from_jsonld blocksSmallFirst = some 5000 ∧
    extract_display_price_from_header docSmallFirst = none ∧
    ∀ d p, extract_display_price_from_header d = some p → 20000 ≤ p := by
  refine ⟨by decide, by decide, fun d p h => display_price_ge h⟩

/-- C7 (witness): the universal part of the amended theorem applied to
docPrecedence, whose display price is 500,000. -/
theorem C7_witness : (20000 : Int) ≤ 500000 :=
  C7_amended.2.2 docPrecedence 500000 (by decide)

/-- C8: analyser_centris is a total function of the (abstracted)
document - every document, including the empty one, yields a well-formed
record carrying the analyzer version - and on the empty document (the
image of an empty or non-string input) every extracted field of the
record is None. -/
theorem C8_total_and_empty :
    (∀ d : Doc, (analyser_centris d).analyzer_version = ANALYZER_VERSION) ∧
    (analyser_centris emptyDoc).property_overview.prix = none ∧
    (analyser_centris emptyDoc).property_overview.type_propriete = none ∧
    (analyser_centris emptyDoc).property_overview.ville = none ∧
    (analyser_centris emptyDoc).property_overview.quartier = none ∧
    (analyser_centris emptyDoc).property_overview.nb_logements = none ∧
    (analyser_centris emptyDoc).property_overview.nb_etages = none ∧
    (analyser_centris emptyDoc).property_overview.superficie_habitable_sqft = none ∧
    (analyser_centris emptyDoc).property_overview.superficie_commerciale_sqft = none ∧
    (analyser_centris emptyDoc).property_overview.superficie_totale_sqft = none ∧
    (analyser_centris emptyDoc).property_overview.superficie_terrain_sqft = none ∧
    (analyser_centris emptyDoc).revenus.revenu_brut_potentiel_annuel = none ∧
    (analyser_centris emptyDoc).depenses_vraies.taxes_municipales = none ∧
    (analyser_centris emptyDoc).depenses_vraies.taxes_scolaires = none ∧
    (analyser_centris emptyDoc).depenses_vraies.assurances = none ∧
    (analyser_centris emptyDoc).depenses_vraies.services_publics = none ∧
    (analyser_centris emptyDoc).depenses_vraies.electricite = none ∧
    (analyser_centris emptyDoc).depenses_vraies.chauffage = none ∧
    (analyser_centris emptyDoc).depenses_vraies.deneigement = none ∧
    (analyser_centris emptyDoc).depenses_vraies.autres_depenses_connues = none ∧
    (analyser_centris emptyDoc).raw_debug.display_price = none := by
  constructor
  · intro d
    rcases hsel : (selectNext d).extracted with _ | e
    · rw [analyser_eq_fallback hsel]
      rfl
    · rw [analyser_eq_next hsel]
      rfl
  · decide

/-- C9 (counterexample): the claim says every monetary field of the
final record is non-negative and range-checked. On docNegativeTax, whose
embedded listing carries a municipal-tax string of -500, the final
municipal tax of the final record is -500: tax fields are attached straight from
the normalizer with no range check. -/
theorem C9_counterexample :
    (analyser_centris docNegativeTax).depenses_vraies.taxes_municipales = some (-500) ∧
    (-500 : Int) < 0 := by
  refine ⟨by decide, by decide⟩

/-- C9 (amended): only the price field is range-checked before being
attached: a resolved price is always at least 20,000 (the header path
guarantees this directly, the other paths via the phantom filter). The
revenue and tax fields carry no range check and can be negative. -/
theorem C9_amended (d : Doc) (p : Int)
    (hp : (analyser_centris d).property_overview.prix = some p) : 20000 ≤ p := by
  rcases hsel : (selectNext d).extracted with _ | e
  · rw [analyser_eq_fallback hsel, buildOut_prix] at hp
    exact resolvePrice_prix_ge (fun q hq => display_price_ge hq) hp
  · rw [analyser_eq_next hsel, buildOut_prix] at hp
    exact resolvePrice_prix_ge (fun q hq => display_price_ge hq) hp

/-- C9 (witness): the amended theorem applied to docPrecedence. -/
theorem C9_witness : (20000 : Int) ≤ 500000 :=
  C9_amended docPrecedence 500000 (by decide)

/-- C10: whenever the display-price extraction succeeds, its value is at
least 20,000, the analyzer adopts it as the final price without running
the phantom plausibility filter on it (phantom_filtered stays false, and
the conclusion holds for every document, whatever price the embedded
payload carries), and the debug price source is header. -/
theorem C10_header_bypasses_filter (d : Doc) (p : Int)
    (h : extract_display_price_from_header d = some p) :
    20000 ≤ p ∧
    (analyser_centris d).property_overview.prix = some p ∧
    (analyser_centris d).raw_debug.price_source = some "header" ∧
    (analyser_centris d).raw_debug.phantom_filtered = false := by
  have hge := display_price_ge h
  have htr : optIntTruthy (extract_display_price_from_header d) = true := by
    rw [h]
    simp only [optIntTruthy, bne_iff_ne, ne_eq, decide_eq_true_eq]
    omega
  rcases hsel : (selectNext d).extracted with _ | e
  · refine ⟨hge, ?_, ?_, ?_⟩
    · rw [analyser_eq_fallback hsel, buildOut_prix, resolvePrice_header htr]
      exact h
    · rw [analyser_eq_fallback hsel, buildOut_source, resolvePrice_header htr]
    · rw [analyser_eq_fallback hsel, buildOut_filtered, resolvePrice_header htr]
  · refine ⟨hge, ?_, ?_, ?_⟩
    · rw [analyser_eq_next hsel, buildOut_prix, resolvePrice_header htr]
      exact h
    · rw [analyser_eq_next hsel, buildOut_source, resolvePrice_header htr]
    · rw [analyser_eq_next hsel, buildOut_filtered, resolvePrice_header htr]

/-- C10 (witness): the theorem applied to docCeiling, whose header price
26,908,000 is far above the filter ceiling and is adopted anyway. -/
theorem C10_witness :
    (20000 : Int) ≤ 26908000 ∧
    (analyser_centris docCeiling).property_overview.prix = some 26908000 ∧
    (analyser_centris docCeiling).raw_debug.price_source = some "header" ∧
    (analyser_centris docCeiling).raw_debug.phantom_filtered = false :=
  C10_header_bypasses_filter docCeiling 26908000 (by decide)

/-! ## Claims about the financial calculator -/

/-- C1 (counterexample): the claim says every absent expense field
contributes exactly 0 to the true-expenses total. With every expense
field absent the total would then be 0; compute_template1 returns 365,
because an absent conciergerie defaults to CONCIERGE_FIXED_DEFAULT. -/
theorem C1_counterexample :
    (compute_template1 {}).depenses_vraies = 365 ∧ (365 : ℚ) ≠ 0 := by
  constructor
  · simp only [compute_template1, fnum, nz, CONCIERGE_FIXED_DEFAULT]
    norm_num
  · norm_num

/-- C1 (amended): the true-expenses total is the sum of the known
expense fields where school tax, municipal tax, insurance, utilities,
electricity, heating and snow removal each contribute 0 when absent,
while an absent conciergerie contributes the fixed default 365. -/
theorem C1_amended (inp : Template1Inputs) :
    (compute_template1 inp).depenses_vraies =
      nz inp.taxes_scolaires + nz inp.taxes_municipales + nz inp.assurances +
      nz inp.services_publics + nz inp.electricite + nz inp.chauffage +
      nz inp.deneigement + inp.conciergerie.getD CONCIERGE_FIXED_DEFAULT := by
  cases hc : inp.conciergerie <;>
    simp [compute_template1, fnum, hc]

/-- C3 (counterexample): the claim says the cashflow output is a
monthly amount, NOI divided by 12 minus the monthly payment. On
cashflowInputs (price 240,000, revenue 30,000, zero rate) NOI is 26,625
and the monthly payment 400; the claimed monthly cashflow would be
26,625 / 12 - 400 = 1,818.75, but compute_template1 returns 21,825. -/
theorem C3_counterexample :
    (compute_template1 cashflowInputs).noi = some 26625 ∧
    (compute_template1 cashflowInputs).pmt_monthly = some 400 ∧
    (compute_template1 cashflowInputs).cashflow = some 21825 ∧
    (21825 : ℚ) ≠ 26625 / 12 - 400 := by
  refine ⟨?_, ?_, ?_, by norm_num⟩ <;>
  · simp only [compute_template1, cashflowInputs, fnum, nz, safe_div, pmt_monthly,
      CONCIERGE_FIXED_DEFAULT, VACANCY_RATE_DEFAULT, SALARIES_RATE_DEFAULT,
      MAINTENANCE_FIXED_DEFAULT, QF_DEFAULT, RATE_DEFAULT, AMORT_YEARS_DEFAULT,
      DSCR_TARGET_DEFAULT, Option.map]
    norm_num

/-- C3 (amended): the cashflow field of compute_template1 is an annual
amount: whenever NOI and the annual debt service are both defined, it
equals NOI minus the annual debt service (that is, 12 times the claimed
monthly quantity). -/
theorem C3_amended (inp : Template1Inputs) (x y : ℚ)
    (hn : (compute_template1 inp).noi = some x)
    (hd : (compute_template1 inp).ds_annual = some y) :
    (compute_template1 inp).cashflow = some (x - y) := by
  simp only [compute_template1] at hn hd ⊢
  rw [hn, hd]

/-- C3 (witness): the amended theorem applied to cashflowInputs, where
NOI is 26,625 and the annual debt service 4,800. -/
theorem C3_witness :
    (compute_template1 cashflowInputs).cashflow = some (26625 - 4800) :=
  C3_amended cashflowInputs 26625 4800
    (by
      simp only [compute_template1, cashflowInputs, fnum, nz, safe_div, pmt_monthly,
        CONCIERGE_FIXED_DEFAULT, VACANCY_RATE_DEFAULT, SALARIES_RATE_DEFAULT,
        MAINTENANCE_FIXED_DEFAULT, QF_DEFAULT, RATE_DEFAULT, AMORT_YEARS_DEFAULT,
        DSCR_TARGET_DEFAULT, Option.map]
      norm_num)
    (by
      simp only [compute_template1, cashflowInputs, fnum, nz, safe_div, pmt_monthly,
        CONCIERGE_FIXED_DEFAULT, VACANCY_RATE_DEFAULT, SALARIES_RATE_DEFAULT,
        MAINTENANCE_FIXED_DEFAULT, QF_DEFAULT, RATE_DEFAULT, AMORT_YEARS_DEFAULT,
        DSCR_TARGET_DEFAULT, Option.map]
      norm_num)

/-! ## Helper lemmas: the decimal-comma condition of the source equals
the amended condition of the specification -/

theorem isDigit_ne_comma {c : Char} (h : c.isDigit = true) : c ≠ ',' := by
  intro he
  subst he
  exact absurd h (by decide)

theorem isDigit_ne_dot {c : Char} (h : c.isDigit = true) : c ≠ '.' := by
  intro he
  subst he
  exact absurd h (by decide)

theorem isDigit_ne_minus {c : Char} (h : c.isDigit = true) : c ≠ '-' := by
  intro he
  subst he
  exact absurd h (by decide)

theorem dropWhile_eq_drop (p : Char → Bool) (l : List Char) :
    l.dropWhile p = l.drop (l.takeWhile p).length := by
  induction l with
  | nil => rfl
  | cons c t ih =>
      by_cases h : p c
      · simp [List.takeWhile_cons, List.dropWhile_cons, h, ih]
      · simp [List.takeWhile_cons, List.dropWhile_cons, h]

theorem takeWhile_drop_eq (p : Char → Bool) (l : List Char) :
    l = l.takeWhile p ++ l.drop (l.takeWhile p).length := by
  conv_lhs => rw [← List.takeWhile_append_dropWhile p l]
  rw [dropWhile_eq_drop]

theorem takeWhile_append_stop {p : Char → Bool} {ds : List Char} {c : Char}
    (rest : List Char) (hall : ds.all p = true) (hc : p c = false) :
    (ds ++ c :: rest).takeWhile p = ds := by
  induction ds with
  | nil => simp [List.takeWhile_cons, hc]
  | cons a t ih =>
      simp only [List.all_cons, Bool.and_eq_true] at hall
      simp [List.takeWhile_cons, hall.1, ih hall.2]

theorem dropWhile_append_stop {p : Char → Bool} {ds : List Char} {c : Char}
    (rest : List Char) (hall : ds.all p = true) (hc : p c = false) :
    (ds ++ c :: rest).dropWhile p = c :: rest := by
  induction ds with
  | nil => simp [List.dropWhile_cons, hc]
  | cons a t ih =>
      simp only [List.all_cons, Bool.and_eq_true] at hall
      simp [List.dropWhile_cons, hall.1, ih hall.2]

theorem matchDecCore_iff (l : List Char) :
    matchDecCore l = true ↔
      ∃ ds a b, l = ds ++ [',', a, b] ∧ ds ≠ [] ∧ ds.all Char.isDigit = true ∧
        a.isDigit = true ∧ b.isDigit = true := by
  constructor
  · intro h
    simp only [matchDecCore] at h
    split at h
    · next a b heq1 heq2 =>
        simp only [Bool.and_eq_true] at h
        refine ⟨l.takeWhile Char.isDigit, a, b, ?_, ?_, ?_, h.1, h.2⟩
        · conv_lhs => rw [takeWhile_drop_eq Char.isDigit l]
          rw [heq2]
        · rw [heq1]
          simp
        · rw [List.all_eq_true]
          intro x hx
          exact List.mem_takeWhile_imp hx
    · exact absurd h (by simp)
  · rintro ⟨ds, a, b, rfl, hne, hall, ha, hb⟩
    have h1 : ((ds ++ [',', a, b]).takeWhile Char.isDigit) = ds :=
      takeWhile_append_stop [a, b] hall (by decide)
    have h2 : (ds ++ [',', a, b]).drop ds.length = [',', a, b] :=
      List.drop_left ds [',', a, b]
    simp only [matchDecCore]
    rw [h1, h2]
    cases ds with
    | nil => exact absurd rfl hne
    | cons d dt => simp [ha, hb]

theorem contains_comma_decomp {l : List Char} (h : l.contains ',' = true) :
    l = l.takeWhile (fun c => c != ',') ++ ',' :: (l.dropWhile (fun c => c != ',')).tail := by
  induction l with
  | nil => simp at h
  | cons c t ih =>
      by_cases hc : c = ','
      · subst hc
        simp [List.takeWhile_cons, List.dropWhile_cons]
      · have hcb : (c != ',') = true := by simp [hc]
        have ht : t.contains ',' = true := by
          rw [List.contains_cons] at h
          simp only [Bool.or_eq_true, beq_iff_eq] at h
          rcases h with h | h
          · exact absurd h.symm hc
          · exact h
        conv_lhs => rw [show c :: t = c :: (t.takeWhile (fun c => c != ',') ++
            ',' :: (t.dropWhile (fun c => c != ',')).tail) from by rw [← ih ht]]
        simp [List.takeWhile_cons, List.dropWhile_cons, hcb]

theorem preShape_minus (t : List Char) :
    preShape ('-' :: t) = (!t.isEmpty && t.all Char.isDigit) := rfl

theorem preShape_cons_ne {c : Char} (pt : List Char) (hc : c ≠ '-') :
    preShape (c :: pt) = (!(c :: pt).isEmpty && (c :: pt).all Char.isDigit) := by
  unfold preShape
  split
  · next heq =>
      injection heq with h1 h2
      exact absurd h1 hc
  · rfl

theorem preShape_nil : preShape [] = false := rfl

theorem amendedCond_iff (l : List Char) :
    amendedCond l = true ↔
      ∃ m ds a b, (m = ([] : List Char) ∨ m = ['-']) ∧ l = m ++ ds ++ [',', a, b] ∧
        ds ≠ [] ∧ ds.all Char.isDigit = true ∧ a.isDigit = true ∧ b.isDigit = true := by
  constructor
  · intro h
    simp only [amendedCond, claimDecimalCond, Bool.and_eq_true] at h
    obtain ⟨⟨⟨hcom, hdot⟩, hpost⟩, hpre⟩ := h
    have hdec := contains_comma_decomp hcom
    simp only [Bool.and_eq_true, decide_eq_true_eq] at hpost
    obtain ⟨hlen, hdig⟩ := hpost
    set post := (l.dropWhile (fun c => c != ',')).tail with hpostDef
    set pre := l.takeWhile (fun c => c != ',') with hpreDef
    match hpp : post, hlen with
    | [a, b], _ =>
      simp only [List.all_cons, List.all_nil, Bool.and_eq_true, Bool.and_true] at hdig
      cases hpc : pre with
      | nil =>
          rw [hpc, preShape_nil] at hpre
          exact absurd hpre (by simp)
      | cons c pt =>
          by_cases hcm : c = '-'
          · subst hcm
            rw [hpc, preShape_minus, Bool.and_eq_true] at hpre
            refine ⟨['-'], pt, a, b, Or.inr rfl, ?_, ?_, hpre.2, hdig.1, hdig.2⟩
            · rw [hdec, hpc]
              simp
            · intro hco
              rw [hco] at hpre
              exact absurd hpre.1 (by simp)
          · rw [hpc, preShape_cons_ne pt hcm, Bool.and_eq_true] at hpre
            refine ⟨[], c :: pt, a, b, Or.inl rfl, ?_, by simp, hpre.2, hdig.1, hdig.2⟩
            rw [hdec, hpc]
            simp
  · rintro ⟨m, ds, a, b, hm, rfl, hne, hall, ha, hb⟩
    have hallne : (m ++ ds).all (fun c => c != ',') = true := by
      rw [List.all_append]
      simp only [Bool.and_eq_true]
      refine ⟨?_, ?_⟩
      · rcases hm with rfl | rfl
        · rfl
        · decide
      · rw [List.all_eq_true] at hall ⊢
        intro x hx
        simpa using isDigit_ne_comma (hall x hx)
    have hassoc : m ++ ds ++ [',', a, b] = (m ++ ds) ++ ',' :: [a, b] := by simp
    have h1 : (m ++ ds ++ [',', a, b]).takeWhile (fun c => c != ',') = m ++ ds := by
      rw [hassoc]
      exact takeWhile_append_stop [a, b] hallne (by decide)
    have h2 : (m ++ ds ++ [',', a, b]).dropWhile (fun c => c != ',') = ',' :: [a, b] := by
      rw [hassoc]
      exact dropWhile_append_stop [a, b] hallne (by decide)
    have hmem : (',' : Char) ∈ m ++ ds ++ [',', a, b] := by simp
    have hnodot : ('.' : Char) ∉ m ++ ds ++ [',', a, b] := by
      intro hd
      simp only [List.mem_append, List.mem_cons] at hd
      rcases hd with (hd | hd) | hd
      · rcases hm with rfl | rfl
        · simp at hd
        · simp only [List.mem_singleton] at hd
          exact absurd hd.symm (by decide)
      · rw [List.all_eq_true] at hall
        exact absurd rfl (isDigit_ne_dot (hall _ hd)).symm
      · rcases hd with hd | hd | hd
        · exact absurd hd.symm (by decide)
        · exact absurd rfl (isDigit_ne_dot (hd ▸ ha)).symm
        · rcases hd with hd | hd
          · exact absurd rfl (isDigit_ne_dot (hd ▸ hb)).symm
          · simp at hd
    simp only [amendedCond, claimDecimalCond, Bool.and_eq_true]
    refine ⟨⟨⟨?_, ?_⟩, ?_⟩, ?_⟩
    · exact List.elem_iff.mpr hmem
    · have : (m ++ ds ++ [',', a, b]).contains '.' = false := by
        rcases hco : (m ++ ds ++ [',', a, b]).contains '.' with _ | _
        · rfl
        · exact absurd (List.elem_iff.mp hco) hnodot
      rw [this]
      rfl
    · rw [h2]
      simp [ha, hb]
    · rw [h1]
      rcases hm with rfl | rfl
      · simp only [List.nil_append]
        cases ds with
        | nil => exact absurd rfl hne
        | cons d dt =>
            rw [preShape_cons_ne dt (fun hdm => isDigit_ne_minus (by
              rw [List.all_eq_true] at hall
              exact hall d (by simp)) hdm)]
            simpa using hall
      · rw [List.singleton_append, preShape_minus]
        simp only [Bool.and_eq_true]
        refine ⟨?_, hall⟩
        simpa using hne

theorem matchDecFR_iff (l : List Char) :
    matchDecFR l = true ↔
      ∃ m ds a b, (m = ([] : List Char) ∨ m = ['-']) ∧ l = m ++ ds ++ [',', a, b] ∧
        ds ≠ [] ∧ ds.all Char.isDigit = true ∧ a.isDigit = true ∧ b.isDigit = true := by
  cases l with
  | nil =>
      constructor
      · intro h
        exact absurd h (by decide)
      · rintro ⟨m, ds, a, b, hm, heq, hne, hall, ha, hb⟩
        rcases List.append_eq_nil.mp (List.append_eq_nil.mp heq.symm).1 with ⟨-, hds⟩
        exact absurd hds hne
  | cons c t =>
      by_cases hc : c = '-'
      · subst hc
        rw [show matchDecFR ('-' :: t) = matchDecCore t from rfl, matchDecCore_iff]
        constructor
        · rintro ⟨ds, a, b, rfl, hne, hall, ha, hb⟩
          exact ⟨['-'], ds, a, b, Or.inr rfl, by simp, hne, hall, ha, hb⟩
        · rintro ⟨m, ds, a, b, hm, heq, hne, hall, ha, hb⟩
          rcases hm with rfl | rfl
          · rw [List.nil_append] at heq
            cases ds with
            | nil => exact absurd rfl hne
            | cons d dt =>
                rw [List.cons_append] at heq
                injection heq with h1 h2
                rw [List.all_cons, Bool.and_eq_true] at hall
                exact absurd h1.symm (isDigit_ne_minus hall.1)
          · rw [List.singleton_append] at heq
            injection heq with h1 h2
            exact ⟨ds, a, b, h2, hne, hall, ha, hb⟩
      · have harm : matchDecFR (c :: t) = matchDecCore (c :: t) := by
          unfold matchDecFR
          split
          · next heq =>
              injection heq with h1 h2
              exact absurd h1 hc
          · rfl
        rw [harm, matchDecCore_iff]
        constructor
        · rintro ⟨ds, a, b, heq, hne, hall, ha, hb⟩
          exact ⟨[], ds, a, b, Or.inl rfl, by simpa using heq, hne, hall, ha, hb⟩
        · rintro ⟨m, ds, a, b, hm, heq, hne, hall, ha, hb⟩
          rcases hm with rfl | rfl
          · exact ⟨ds, a, b, by simpa using heq, hne, hall, ha, hb⟩
          · rw [List.singleton_append] at heq
            injection heq with h1 h2
            exact absurd h1 hc

theorem decCond_eq (l : List Char) : matchDecFR l = amendedCond l := by
  cases hb : matchDecFR l <;> cases ha : amendedCond l
  · rfl
  · exact absurd ((matchDecFR_iff l).mpr ((amendedCond_iff l).mp ha)) (by simp [hb])
  · exact absurd ((amendedCond_iff l).mpr ((matchDecFR_iff l).mp hb)) (by simp [ha])
  · rfl

theorem money_amended_eq (s : String) : money_to_int_str s = money_to_int_amended s := by
  unfold money_to_int_str money_to_int_chars money_to_int_amended
  set s2 := stripWs ((replNbsp s.data).filter keepMoneyChar) with hs2
  by_cases he : s2.isEmpty = true
  · rw [if_pos he, if_pos he]
  · rw [if_neg he, if_neg he]
    set t := s2.filter (fun c => !isPySpace c) with ht
    by_cases hcom : t.contains ',' = true
    · by_cases hdot : t.contains '.' = true
      · have hc1 : (t.contains ',' && !t.contains '.') = false := by
          rw [hcom, hdot]
          rfl
        have hc2 : (t.contains ',' && t.contains '.') = true := by
          rw [hcom, hdot]
          rfl
        have hAm : amendedCond t = false := by
          simp only [amendedCond, claimDecimalCond, hdot]
          simp
        rw [if_neg (by rw [hc1]; simp), if_pos hc2, if_neg (by rw [hAm]; simp)]
      · have hdotf : t.contains '.' = false := by
          cases h2 : t.contains '.'
          · rfl
          · exact absurd h2 hdot
        have hc1 : (t.contains ',' && !t.contains '.') = true := by
          rw [hcom, hdotf]
          rfl
        rw [if_pos hc1]
        by_cases hm : matchDecFR t = true
        · rw [if_pos hm, if_pos (by rw [← decCond_eq]; exact hm)]
        · rw [if_neg hm, if_neg (by rw [← decCond_eq]; exact hm)]
    · have hcomf : t.contains ',' = false := by
        cases h2 : t.contains ','
        · rfl
        · exact absurd h2 hcom
      have hc1 : (t.contains ',' && !t.contains '.') = false := by
        rw [hcomf]
        rfl
      have hc2 : (t.contains ',' && t.contains '.') = false := by
        rw [hcomf]
        rfl
      have hAm : amendedCond t = false := by
        simp only [amendedCond, claimDecimalCond, hcomf]
        rfl
      have hfilt : t.filter (fun c => c != ',') = t := by
        rw [List.filter_eq_self]
        intro a ha
        simp only [bne_iff_ne, ne_eq]
        intro haeq
        subst haeq
        exact absurd (List.elem_iff.mpr ha) hcom
      rw [if_neg (by rw [hc1]; simp), if_neg (by rw [hc2]; simp),
        if_neg (by rw [hAm]; simp), hfilt]

/-! ## Claims about the money normalizer -/

/-- C4 (counterexample): the claim treats a comma as a decimal separator
exactly when the cleaned string contains a comma, no dot, and exactly
two digits after the comma. The input ",50" satisfies that condition
(a comma, no dot, exactly the two digits 5 and 0 after the comma), so
the parser the claim describes returns round(0.50) = 0, yet the source
treats the comma as a thousands separator and returns 50: the claim
omits that at least one digit must precede the comma. -/
theorem C4_counterexample :
    money_to_int_claim ",50" = some 0 ∧
    money_to_int_str ",50" = some 50 ∧
    money_to_int_claim ",50" ≠ money_to_int_str ",50" := by
  refine ⟨by decide, by decide, by decide⟩

/-- C4 (amended): the money normalizer treats a comma as a decimal
separator exactly when the cleaned string contains a comma, no dot,
exactly two digits after the comma, and, before the comma, an optional
minus sign followed by at least one digit (and otherwise as a thousands
separator, including when both comma and dot are present): the source
parser coincides with the amended specification parser on every input.
Consequently parse_money of "3 120,00 $" is 3120, of "908 000 $" is
908000, of "1,234.56" is 1235, and the empty and non-numeric inputs
give None (the embedding is a total function, so no exception is
possible). -/
theorem C4_amended :
    (∀ s, money_to_int_str s = money_to_int_amended s) ∧
    money_to_int_str "3 120,00 $" = some 3120 ∧
    money_to_int_str "908 000 $" = some 908000 ∧
    money_to_int_str "1,234.56" = some 1235 ∧
    money_to_int_str "" = none ∧
    money_to_int_str "abc" = none := by
  refine ⟨money_amended_eq, by decide, by decide, by decide, by decide, by decide⟩

end Centris
